import Mathlib

/-!
Verification of the adaptive algorithm-selection core: a shallow embedding of
`features/prediction` (performance tracking, confidence scoring, the switch
decision engine, the Q-learning selector, and the forecast orchestrator),
with theorems settling the specification claims about it.
Rates and scores are modelled as rationals; Python dicts become association
lists or option-valued functions.
-/

/-- Forecast categories (the four prediction types of the system). -/
inductive PredType
  | single_double
  | big_small
  | kill_group
  | double_group
deriving DecidableEq

/-- Per (category, algorithm) performance record, with the fields initialized
in `PredictorModel.__init__` (predictor_model.py, lines 40-50). -/
structure PerfRecord where
  total_predictions : Nat
  correct_predictions : Nat
  recent_results : List Nat
  consecutive_correct : Nat
  consecutive_wrong : Nat
  last_switch_time : Nat
  success_rate : ℚ
  recent_success_rate : ℚ
  confidence_score : ℚ
deriving DecidableEq

/-- The all-default record a fresh algorithm starts with. -/
def initPerfRecord : PerfRecord :=
  { total_predictions := 0
  , correct_predictions := 0
  , recent_results := []
  , consecutive_correct := 0
  , consecutive_wrong := 0
  , last_switch_time := 0
  , success_rate := 0.5
  , recent_success_rate := 0.5
  , confidence_score := 0.5 }

/-- `calculate_confidence_score` from prediction_utils.py, lines 11-36. -/
def calculate_confidence_score (perf : PerfRecord) : ℚ :=
  let base_confidence := perf.success_rate * 0.4 + perf.recent_success_rate * 0.6
  let correct_bonus := min ((perf.consecutive_correct : ℚ) * 0.05) 0.2
  let wrong_penalty := min ((perf.consecutive_wrong : ℚ) * 0.1) 0.3
  let experience_factor := min ((perf.total_predictions : ℚ) / 50) 1 * 0.1
  let confidence := base_confidence + correct_bonus - wrong_penalty + experience_factor
  max 0.1 (min 0.95 confidence)

/-- `switch_config['max_recent_results']` (algorithm_switcher.py, line 19). -/
def max_recent_results : Nat := 20

/-- `PredictorModel.update_algorithm_performance` (predictor_model.py,
lines 193-221) restricted to the single record it mutates. -/
def update_algorithm_performance (perf : PerfRecord) (is_correct : Bool) : PerfRecord :=
  let total := perf.total_predictions + 1
  let correct := if is_correct then perf.correct_predictions + 1 else perf.correct_predictions
  let cc := if is_correct then perf.consecutive_correct + 1 else 0
  let cw := if is_correct then 0 else perf.consecutive_wrong + 1
  let recent0 := perf.recent_results ++ [if is_correct then 1 else 0]
  let recent := if max_recent_results < recent0.length then recent0.tail else recent0
  let sr : ℚ := (correct : ℚ) / (total : ℚ)
  let rsr : ℚ := if 0 < recent.length then (recent.sum : ℚ) / (recent.length : ℚ) else 0.5
  let perf1 : PerfRecord :=
    { total_predictions := total
    , correct_predictions := correct
    , recent_results := recent
    , consecutive_correct := cc
    , consecutive_wrong := cw
    , last_switch_time := perf.last_switch_time
    , success_rate := sr
    , recent_success_rate := rsr
    , confidence_score := perf.confidence_score }
  { perf1 with confidence_score := calculate_confidence_score perf1 }

/-- The per-category performance dictionary `perf_data` of
`AlgorithmSwitcher.should_switch_algorithm`: a Python dict keyed by
algorithm id; a missing key behaves as the empty dict `{}`. -/
abbrev PerfData := Nat → Option PerfRecord

/-- `perf_data.get(a, {}).get('total_predictions', 0)`. -/
def getTotalPredictions (pd : PerfData) (a : Nat) : Nat :=
  match pd a with
  | some p => p.total_predictions
  | none => 0

/-- `perf_data.get(a, {}).get('consecutive_wrong', 0)`. -/
def getConsecutiveWrong (pd : PerfData) (a : Nat) : Nat :=
  match pd a with
  | some p => p.consecutive_wrong
  | none => 0

/-- `perf_data.get(a, {}).get('confidence_score', 0.5)` (should_switch path). -/
def getConfidenceScore (pd : PerfData) (a : Nat) : ℚ :=
  match pd a with
  | some p => p.confidence_score
  | none => 0.5

/-- `perf_data.get(a, {}).get('recent_success_rate', 0.5)`. -/
def getRecentSuccessRate (pd : PerfData) (a : Nat) : ℚ :=
  match pd a with
  | some p => p.recent_success_rate
  | none => 0.5

/-- The sort key of `_select_next_algorithm`:
`perf_data.get(a, {}).get('confidence_score', 0)` — note default 0 here
(algorithm_switcher.py, line 431). -/
def confKey (pd : PerfData) (a : Nat) : ℚ :=
  match pd a with
  | some p => p.confidence_score
  | none => 0

/-- One step of the stable descending insertion used to model Python's
stable `sorted(..., key=conf, reverse=True)`: a later element is placed
after every earlier element whose key is ≥ its own key. -/
def insertDescending (key : Nat → ℚ) (x : Nat) : List Nat → List Nat
  | [] => [x]
  | y :: ys => if key x ≤ key y then y :: insertDescending key x ys else x :: y :: ys

/-- Stable sort by key, descending (Python `sorted(l, key=key, reverse=True)`). -/
def sortDescending (key : Nat → ℚ) (l : List Nat) : List Nat :=
  l.foldl (fun acc x => insertDescending key x acc) []

/-- `AlgorithmSwitcher._select_next_algorithm` (algorithm_switcher.py, lines
408-443): the other algorithms sorted by confidence (default 0) descending,
taking the first; the `except` fallback `current_algo % 3 + 1` is the
default for the (unreachable) empty case. -/
def selectNextAlgorithm (current_algo : Nat) (pd : PerfData) : Nat :=
  let other_algos := [1, 2, 3].filter (fun a => a ≠ current_algo)
  (sortDescending (confKey pd) other_algos).headD (current_algo % 3 + 1)

/-- `all(trend[i] < trend[i-1] for i in range(1, len(trend)))`: every element
strictly below its predecessor. -/
def allStrictlyDecreasing : List ℚ → Bool
  | a :: b :: t => decide (b < a) && allStrictlyDecreasing (b :: t)
  | _ => true

/-- The reasons `should_switch_algorithm` can return; each constructor
corresponds to one of the literal reason strings of the source. -/
inductive SwitchReason
  | insufficientData
  | consecutiveErrors (n : Nat)
  | lowConfidence (c : ℚ)
  | lowRecentSuccessRate (r : ℚ)
  | performanceDeclining
  | exploration
  | normal
deriving DecidableEq

/-- The literal reason strings of the source, for the constructors whose text
does not involve Python float formatting (`:.2f` / `:.2%` are not modelled,
so `lowConfidence` and `lowRecentSuccessRate` map to `none`). -/
def reasonText : SwitchReason → Option String
  | .insufficientData => some "数据不足"
  | .consecutiveErrors n => some ("连续错误次数过多: " ++ toString n ++ "次")
  | .performanceDeclining => some "性能持续下降"
  | .exploration => some "算法探索"
  | .normal => some "算法运行正常"
  | .lowConfidence _ => none
  | .lowRecentSuccessRate _ => none

/-- `switch_config['min_predictions_before_switch']` (line 31). -/
def min_predictions_before_switch : Nat := 5

/-- `switch_config['max_consecutive_errors']` (line 32). -/
def max_consecutive_errors : Nat := 3

/-- `switch_config['min_confidence_score']` (line 33). -/
def min_confidence_score : ℚ := 0.4

/-- `switch_config['min_recent_success_rate']` (line 34). -/
def min_recent_success_rate : ℚ := 0.4

/-- `switch_config['exploration_threshold']` (line 36). -/
def exploration_threshold : Nat := 10

/-- `AlgorithmSwitcher.should_switch_algorithm` (algorithm_switcher.py, lines
89-143). `trend` is `self.algorithm_trends.get(pred_type, {}).get(current_algo, [])`;
`force_exploration` is the `self.force_exploration` flag; `exploreDraw`
stands for the random draw `random.random() < exploration_probability`. -/
def should_switch_algorithm (current_algo : Nat) (pd : PerfData) (trend : List ℚ)
    (force_exploration : Bool) (exploreDraw : Bool) : Nat × SwitchReason :=
  if getTotalPredictions pd current_algo < min_predictions_before_switch then
    (current_algo, .insufficientData)
  else
    let consecutive_wrong := getConsecutiveWrong pd current_algo
    if max_consecutive_errors ≤ consecutive_wrong then
      (selectNextAlgorithm current_algo pd, .consecutiveErrors consecutive_wrong)
    else
      let confidence_score := getConfidenceScore pd current_algo
      if confidence_score < min_confidence_score then
        (selectNextAlgorithm current_algo pd, .lowConfidence confidence_score)
      else
        let recent_success_rate := getRecentSuccessRate pd current_algo
        if recent_success_rate < min_recent_success_rate then
          (selectNextAlgorithm current_algo pd, .lowRecentSuccessRate recent_success_rate)
        else if 3 ≤ trend.length ∧ allStrictlyDecreasing trend then
          (selectNextAlgorithm current_algo pd, .performanceDeclining)
        else if force_exploration ∨
            (exploreDraw ∧ exploration_threshold < getTotalPredictions pd current_algo) then
          (selectNextAlgorithm current_algo pd, .exploration)
        else
          (current_algo, .normal)

/-- Association-list lookup, modelling Python dict indexing/`get`. -/
def alookup {α β : Type} [DecidableEq α] (k : α) : List (α × β) → Option β
  | [] => none
  | (k', v) :: t => if k' = k then some v else alookup k t

/-- Association-list assignment, modelling Python dict item assignment:
replaces the binding of an existing key in place, else appends. -/
def aset {α β : Type} [DecidableEq α] (k : α) (v : β) : List (α × β) → List (α × β)
  | [] => [(k, v)]
  | (k', v') :: t => if k' = k then (k, v) :: t else (k', v') :: aset k v t

/-- One row of the Q-table: algorithm id → Q-value. -/
abbrev QRow := List (Nat × ℚ)

/-- The Q-table: state string → row. -/
abbrev QTable := List (String × QRow)

/-- The lazily-created row `{1: 0.5, 2: 0.5, 3: 0.5}`. -/
def defaultQRow : QRow := [(1, 0.5), (2, 0.5), (3, 0.5)]

/-- `if s not in self.q_table: self.q_table[s] = {1: 0.5, 2: 0.5, 3: 0.5}`. -/
def ensureRow (q : QTable) (s : String) : QTable :=
  match alookup s q with
  | some _ => q
  | none => aset s defaultQRow q

/-- Python `max(values)`: `none` on an empty collection (where Python raises). -/
def maxValues : List ℚ → Option ℚ
  | [] => none
  | x :: t => some (t.foldl max x)

/-- `ReinforcementLearner.update_q_values` (reinforcement_learner.py, lines
159-193). `lr` and `γ` model `self.learning_rate` (init 0.05) and
`self.discount_factor` (init 0.95). The `none` branch of `maxValues` mirrors
the `except` path: `max()` on an empty row raises, the exception is logged,
and the table keeps only the row initializations already performed. -/
def update_q_values (q : QTable) (state : String) (action : Nat) (reward : ℚ)
    (next_state : String) (lr γ : ℚ) : QTable :=
  let q1 := ensureRow q state
  let q2 := ensureRow q1 next_state
  let row := (alookup state q2).getD []
  let current_q := (alookup action row).getD 0.5
  let next_row := (alookup next_state q2).getD []
  match maxValues (next_row.map Prod.snd) with
  | none => q2
  | some max_next_q =>
    let new_q := current_q + lr * (reward + γ * max_next_q - current_q)
    aset state (aset action new_q row) q2

/-- Entry read-out of a Q-table, for stating which entries an update leaves
unchanged. -/
def getEntry (q : QTable) (s : String) (a : Nat) : Option ℚ :=
  (alookup s q).bind (fun row => alookup a row)

/-- One history record of the lottery data, reduced to the period number
(`records[0][1]`, the `qihao` field) that `calculate_prediction` reads. -/
structure LotteryRecord where
  qihao : Nat
deriving DecidableEq

/-- A cached prediction as stored by `db_manager.cache_prediction`:
the prediction text and `json.dumps({prediction_type: current_algo})`,
modelled as the (category, algorithm) pair it encodes. -/
structure CachedPrediction where
  prediction : String
  algorithm_used : PredType × Nat
deriving DecidableEq

/-- The `switch_info` dict built in `calculate_prediction` (lines 309-313). -/
structure SwitchInfo where
  from_algo : Nat
  to_algo : Nat
  reason : SwitchReason
deriving DecidableEq

/-- The dict returned by `calculate_prediction`. A fresh non-switching result
omits the `switch_info` key and a cached read stores `None` in it; both are
modelled as `none`. -/
structure PredictionResult where
  qihao : Nat
  prediction_type : PredType
  prediction : String
  algorithm_used : PredType × Nat
  switch_info : Option SwitchInfo
deriving DecidableEq

/-- The mutable state of `PredictorModel` (plus the parts of its
`AlgorithmSwitcher` and of the cache that `calculate_prediction` touches).
`switch_history` is `AlgorithmSwitcher.algorithm_switch_history`; its entries
are only ever appended by `AlgorithmSwitcher.select_next_algorithm`, which
records richer snapshots — `SwitchInfo` suffices here because no operation
modelled in this file appends to it. -/
structure PredictorState where
  current_algorithms : PredType → Nat
  algorithm_performance : PredType → PerfData
  algorithm_trends : PredType → Nat → List ℚ
  switch_counters : PredType → Nat
  force_exploration : Bool
  forced_exploration_done : PredType → Bool
  last_used_algorithms : PredType → Nat → Option Nat
  cache : Nat → PredType → Option CachedPrediction
  switch_history : PredType → List SwitchInfo

/-- The tail of `calculate_prediction` (predictor_model.py, lines 320-347):
record the algorithm used for the period, run the pluggable forecasting
function, build the result and cache it. The returned `Nat` counts the
invocations of the forecasting function. An empty prediction string is falsy
in Python (`if not prediction_content`), hence also a failure. -/
def runForecast (s : PredictorState)
    (predictFn : PredType → Nat → List LotteryRecord → Option String)
    (records : List LotteryRecord) (prediction_type : PredType)
    (next_qihao : Nat) (current_algo : Nat) (switch_info : Option SwitchInfo) :
    Option PredictionResult × PredictorState × Nat :=
  let newLastUsed := fun pt q =>
    if pt = prediction_type ∧ q = next_qihao then some current_algo
    else s.last_used_algorithms pt q
  let s0 := { s with last_used_algorithms := newLastUsed }
  match predictFn prediction_type current_algo records with
  | none => (none, s0, 1)
  | some content =>
    if content.isEmpty then (none, s0, 1)
    else
      let result : PredictionResult :=
        { qihao := next_qihao
        , prediction_type := prediction_type
        , prediction := content
        , algorithm_used := (prediction_type, current_algo)
        , switch_info := switch_info }
      let entry : CachedPrediction :=
        { prediction := content, algorithm_used := (prediction_type, current_algo) }
      let newCache := fun q pt =>
        if q = next_qihao ∧ pt = prediction_type then some entry
        else s0.cache q pt
      let s1 := { s0 with cache := newCache }
      (some result, s1, 1)

/-- The switch-decision block of `calculate_prediction` (lines 288-318) for
the non-`big_small` categories: the periodic forced-exploration reset, the
call to `should_switch_algorithm`, and the `CurrentSelection` update with its
`switch_info` record when the algorithm changes. -/
def switchPhase (s1 : PredictorState) (prediction_type : PredType)
    (exploreDraw : Bool) : PredictorState × Nat × Option SwitchInfo :=
  let current_algo := s1.current_algorithms prediction_type
  let resetCounters := fun pt =>
    if pt = prediction_type then 0 else s1.switch_counters pt
  let s2 :=
    if 100 ≤ s1.switch_counters prediction_type then
      { s1 with forced_exploration_done := fun _ => false,
                switch_counters := resetCounters }
    else s1
  let out := should_switch_algorithm current_algo
      (s2.algorithm_performance prediction_type)
      (s2.algorithm_trends prediction_type current_algo)
      s2.force_exploration exploreDraw
  let newCurrent := fun pt =>
    if pt = prediction_type then out.1 else s2.current_algorithms pt
  let info : SwitchInfo :=
    { from_algo := current_algo, to_algo := out.1, reason := out.2 }
  if out.1 ≠ current_algo then
    ({ s2 with current_algorithms := newCurrent }, out.1, some info)
  else
    (s2, current_algo, none)

/-- `PredictorModel.calculate_prediction` (predictor_model.py, lines 236-351).
An empty `records` list raises at `records[0]` and the `except` returns
`None`; a cache hit returns the cached data with `switch_info = None` and runs
no selection logic; `big_small` always forces algorithm 1; otherwise the
switch phase runs and the forecast is computed and cached. -/
def calculate_prediction (s : PredictorState)
    (predictFn : PredType → Nat → List LotteryRecord → Option String)
    (records : List LotteryRecord) (prediction_type : PredType)
    (exploreDraw : Bool) : Option PredictionResult × PredictorState × Nat :=
  match records with
  | [] => (none, s, 0)
  | latest :: _ =>
    let next_qihao := latest.qihao + 1
    match s.cache next_qihao prediction_type with
    | some cached =>
      (some { qihao := next_qihao
            , prediction_type := prediction_type
            , prediction := cached.prediction
            , algorithm_used := cached.algorithm_used
            , switch_info := none }, s, 0)
    | none =>
      let bumpCounters := fun pt =>
        if pt = prediction_type then s.switch_counters pt + 1
        else s.switch_counters pt
      let s1 := { s with switch_counters := bumpCounters }
      let forceAlgoOne := fun pt =>
        if pt = prediction_type then 1 else s1.current_algorithms pt
      let step :=
        if prediction_type = PredType.big_small then
          ({ s1 with current_algorithms := forceAlgoOne }, 1,
            (none : Option SwitchInfo))
        else
          switchPhase s1 prediction_type exploreDraw
      runForecast step.1 predictFn records prediction_type next_qihao
        step.2.1 step.2.2

lemma foldl_counters_exclusive (outcomes : List Bool) (r : PerfRecord)
    (h : r.consecutive_correct = 0 ∨ r.consecutive_wrong = 0) :
    (outcomes.foldl update_algorithm_performance r).consecutive_correct = 0 ∨
    (outcomes.foldl update_algorithm_performance r).consecutive_wrong = 0 := by
  induction outcomes generalizing r with
  | nil => exact h
  | cons b bs ih =>
    simp only [List.foldl_cons]
    apply ih
    cases b
    · exact Or.inl rfl
    · exact Or.inr rfl

lemma mem_insertDescending {key : Nat → ℚ} {x a : Nat} {l : List Nat}
    (h : a ∈ insertDescending key x l) : a = x ∨ a ∈ l := by
  induction l with
  | nil =>
    simp only [insertDescending, List.mem_singleton] at h
    exact Or.inl h
  | cons y ys ih =>
    unfold insertDescending at h
    split at h
    · rcases List.mem_cons.mp h with h' | h'
      · exact Or.inr (h' ▸ List.mem_cons_self y ys)
      · rcases ih h' with h'' | h''
        · exact Or.inl h''
        · exact Or.inr (List.mem_cons_of_mem y h'')
    · rcases List.mem_cons.mp h with h' | h'
      · exact Or.inl h'
      · exact Or.inr h'

lemma mem_foldl_insertDescending (key : Nat → ℚ) (l acc : List Nat) (a : Nat)
    (h : a ∈ l.foldl (fun acc x => insertDescending key x acc) acc) :
    a ∈ acc ∨ a ∈ l := by
  induction l generalizing acc with
  | nil => exact Or.inl h
  | cons x xs ih =>
    rcases ih _ h with h' | h'
    · rcases mem_insertDescending h' with h'' | h''
      · exact Or.inr (h'' ▸ List.mem_cons_self x xs)
      · exact Or.inl h''
    · exact Or.inr (List.mem_cons_of_mem x h')

lemma mem_sortDescending {key : Nat → ℚ} {l : List Nat} {a : Nat}
    (h : a ∈ sortDescending key l) : a ∈ l := by
  rcases mem_foldl_insertDescending key l [] a h with h' | h'
  · simp at h'
  · exact h'

lemma sortDescending_pair (key : Nat → ℚ) (a b : Nat) :
    sortDescending key [a, b] = if key b ≤ key a then [a, b] else [b, a] := by
  simp only [sortDescending, List.foldl]
  simp only [insertDescending]

lemma selectNext_eq_one (pd : PerfData) :
    selectNextAlgorithm 1 pd = if confKey pd 3 ≤ confKey pd 2 then 2 else 3 := by
  have hfilter : ([1, 2, 3] : List Nat).filter (fun a => a ≠ 1) = [2, 3] := by decide
  simp only [selectNextAlgorithm]
  rw [hfilter, sortDescending_pair]
  split <;> rfl

lemma selectNext_eq_two (pd : PerfData) :
    selectNextAlgorithm 2 pd = if confKey pd 3 ≤ confKey pd 1 then 1 else 3 := by
  have hfilter : ([1, 2, 3] : List Nat).filter (fun a => a ≠ 2) = [1, 3] := by decide
  simp only [selectNextAlgorithm]
  rw [hfilter, sortDescending_pair]
  split <;> rfl

lemma selectNext_eq_three (pd : PerfData) :
    selectNextAlgorithm 3 pd = if confKey pd 2 ≤ confKey pd 1 then 1 else 2 := by
  have hfilter : ([1, 2, 3] : List Nat).filter (fun a => a ≠ 3) = [1, 2] := by decide
  simp only [selectNextAlgorithm]
  rw [hfilter, sortDescending_pair]
  split <;> rfl

lemma selectNext_ne (current_algo : Nat) (pd : PerfData) :
    selectNextAlgorithm current_algo pd ≠ current_algo := by
  by_cases h1 : current_algo = 1
  · subst h1; rw [selectNext_eq_one]; split <;> decide
  by_cases h2 : current_algo = 2
  · subst h2; rw [selectNext_eq_two]; split <;> decide
  by_cases h3 : current_algo = 3
  · subst h3; rw [selectNext_eq_three]; split <;> decide
  have hfilter : ([1, 2, 3] : List Nat).filter (fun a => a ≠ current_algo) = [1, 2, 3] := by
    rw [List.filter_eq_self]
    intro a ha
    have hane : a ≠ current_algo := by
      simp only [List.mem_cons, List.mem_singleton, List.not_mem_nil, or_false] at ha
      rcases ha with rfl | rfl | rfl <;> omega
    simpa using hane
  simp only [selectNextAlgorithm]
  rw [hfilter]
  rcases hl : sortDescending (confKey pd) [1, 2, 3] with _ | ⟨x, xs⟩
  · simp only [List.headD_nil]
    omega
  · simp only [List.headD_cons]
    have hx : x ∈ sortDescending (confKey pd) [1, 2, 3] := by
      rw [hl]; exact List.mem_cons_self x xs
    have hmem := mem_sortDescending hx
    simp only [List.mem_cons, List.mem_singleton, List.not_mem_nil, or_false] at hmem
    rcases hmem with rfl | rfl | rfl <;> omega

/-- C8: after any single performance-record update, at least one of the two
consecutive counters is zero (a correct outcome increments
`consecutive_correct` and zeroes `consecutive_wrong`, an incorrect outcome
the inverse), and after any sequence of updates from the all-zero record the
two counters are never simultaneously positive. -/
theorem consecutive_counters_exclusive :
    (∀ (perf : PerfRecord) (is_correct : Bool),
      (update_algorithm_performance perf is_correct).consecutive_correct = 0 ∨
      (update_algorithm_performance perf is_correct).consecutive_wrong = 0) ∧
    (∀ outcomes : List Bool,
      (outcomes.foldl update_algorithm_performance initPerfRecord).consecutive_correct = 0 ∨
      (outcomes.foldl update_algorithm_performance initPerfRecord).consecutive_wrong = 0) := by
  constructor
  · intro perf is_correct
    cases is_correct
    · exact Or.inl rfl
    · exact Or.inr rfl
  · intro outcomes
    exact foldl_counters_exclusive outcomes initPerfRecord (Or.inl rfl)

/-- The bit appended to `recent_results`: `1 if is_correct else 0`. -/
def outcomeBit (b : Bool) : Nat := if b then 1 else 0

lemma update_recent_results (perf : PerfRecord) (b : Bool)
    (h : perf.recent_results.length ≤ 20) :
    (update_algorithm_performance perf b).recent_results =
      (perf.recent_results ++ [outcomeBit b]).drop
        ((perf.recent_results ++ [outcomeBit b]).length - 20) := by
  set l := perf.recent_results ++ [outcomeBit b] with hl
  show (if max_recent_results < l.length then l.tail else l) = l.drop (l.length - 20)
  have hlen : l.length = perf.recent_results.length + 1 := by simp [hl]
  by_cases hc : max_recent_results < l.length
  · rw [if_pos hc]
    have h1 : l.length - 20 = 1 := by
      simp only [max_recent_results] at hc
      omega
    rw [h1, List.drop_one]
  · rw [if_neg hc]
    have h0 : l.length - 20 = 0 := by
      simp only [max_recent_results] at hc
      omega
    rw [h0, List.drop_zero]

lemma update_recent_length_le (perf : PerfRecord) (b : Bool)
    (h : perf.recent_results.length ≤ 20) :
    (update_algorithm_performance perf b).recent_results.length ≤ 20 := by
  rw [update_recent_results perf b h, List.length_drop]
  omega

lemma window_drop_append (xs ys : List Nat) :
    ((xs.drop (xs.length - 20)) ++ ys).drop
        (((xs.drop (xs.length - 20)) ++ ys).length - 20)
      = (xs ++ ys).drop ((xs ++ ys).length - 20) := by
  have hk : xs.length - 20 ≤ xs.length := Nat.sub_le _ _
  rw [← List.drop_append_of_le_length hk, List.drop_drop]
  simp only [List.length_drop, List.length_append]
  congr 1
  omega

lemma foldl_recent_results (outcomes : List Bool) (r : PerfRecord)
    (h : r.recent_results.length ≤ 20) :
    (outcomes.foldl update_algorithm_performance r).recent_results =
      (r.recent_results ++ outcomes.map outcomeBit).drop
        ((r.recent_results ++ outcomes.map outcomeBit).length - 20) := by
  induction outcomes generalizing r with
  | nil =>
    simp only [List.foldl_nil, List.map_nil, List.append_nil]
    rw [Nat.sub_eq_zero_of_le h, List.drop_zero]
  | cons b bs ih =>
    simp only [List.foldl_cons, List.map_cons]
    rw [ih (update_algorithm_performance r b) (update_recent_length_le r b h),
      update_recent_results r b h]
    have := window_drop_append (r.recent_results ++ [outcomeBit b])
      (bs.map outcomeBit)
    simpa [List.append_assoc] using this

/-- C9: the recent-results window never exceeds 20 entries under any sequence
of updates from the empty record, with FIFO eviction; after 25 outcomes the
window holds exactly the last 20 outcome bits — the first 5 are gone. -/
theorem recent_window_bound_and_eviction :
    (∀ outcomes : List Bool,
      (outcomes.foldl update_algorithm_performance initPerfRecord).recent_results.length
        ≤ 20) ∧
    (∀ outcomes : List Bool, outcomes.length = 25 →
      (outcomes.foldl update_algorithm_performance initPerfRecord).recent_results =
        (outcomes.drop 5).map outcomeBit ∧
      (outcomes.foldl update_algorithm_performance initPerfRecord).recent_results.length
        = 20) := by
  have hbase : initPerfRecord.recent_results.length ≤ 20 := by decide
  constructor
  · intro outcomes
    rw [foldl_recent_results outcomes initPerfRecord hbase]
    simp only [List.length_drop]
    omega
  · intro outcomes h25
    have hr := foldl_recent_results outcomes initPerfRecord hbase
    simp only [show initPerfRecord.recent_results = [] from rfl,
      List.nil_append, List.length_map, h25] at hr
    norm_num at hr
    refine ⟨?_, ?_⟩
    · rw [hr, List.map_drop]
    · rw [hr, List.length_drop, List.length_map, h25]

/-- Witness for the conditional part of C9: 25 outcomes of `true` leave a
window of exactly the last 20 bits. -/
theorem recent_window_bound_and_eviction_witness :
    (List.replicate 25 true).length = 25 ∧
    ((List.replicate 25 true).foldl update_algorithm_performance
        initPerfRecord).recent_results =
      ((List.replicate 25 true).drop 5).map outcomeBit ∧
    ((List.replicate 25 true).foldl update_algorithm_performance
        initPerfRecord).recent_results.length = 20 :=
  ⟨by decide,
   recent_window_bound_and_eviction.2 (List.replicate 25 true) (by decide)⟩

/-- C2: the confidence score equals the clamped weighted formula of the
record's fields, and is therefore always within [0.1, 0.95]. -/
theorem confidence_score_formula_and_bounds (perf : PerfRecord)
    (h : 1 ≤ perf.total_predictions) :
    calculate_confidence_score perf =
      max 0.1 (min 0.95
        (perf.success_rate * 0.4 + perf.recent_success_rate * 0.6
          + min ((perf.consecutive_correct : ℚ) * 0.05) 0.2
          - min ((perf.consecutive_wrong : ℚ) * 0.1) 0.3
          + min ((perf.total_predictions : ℚ) / 50) 1 * 0.1))
    ∧ 0.1 ≤ calculate_confidence_score perf
    ∧ calculate_confidence_score perf ≤ 0.95 := by
  refine ⟨rfl, ?_, ?_⟩
  · exact le_max_left _ _
  · exact max_le (by norm_num) (min_le_left _ _)

/-- Witness for C2 at a concrete record. -/
theorem confidence_score_formula_and_bounds_witness :
    1 ≤ initPerfRecord.total_predictions + 1 ∧
    (0.1 ≤ calculate_confidence_score (update_algorithm_performance initPerfRecord true)
      ∧ calculate_confidence_score (update_algorithm_performance initPerfRecord true) ≤ 0.95) :=
  ⟨by decide,
   (confidence_score_formula_and_bounds
      (update_algorithm_performance initPerfRecord true) (by decide)).2⟩

/-- C5: whenever the current algorithm has fewer than 5 recorded predictions,
`should_switch_algorithm` keeps the current algorithm with the reason
"数据不足" (insufficient data), regardless of every other field. -/
theorem insufficient_data_guard (current_algo : Nat) (pd : PerfData)
    (trend : List ℚ) (force_exploration exploreDraw : Bool)
    (h : getTotalPredictions pd current_algo < 5) :
    should_switch_algorithm current_algo pd trend force_exploration exploreDraw
      = (current_algo, SwitchReason.insufficientData)
    ∧ reasonText SwitchReason.insufficientData = some "数据不足" := by
  refine ⟨?_, rfl⟩
  unfold should_switch_algorithm
  rw [if_pos]
  exact h

/-- A record with 2 total predictions and otherwise alarming statistics. -/
def perfLowData : PerfRecord :=
  { initPerfRecord with
    total_predictions := 2, consecutive_wrong := 9, confidence_score := 0,
    recent_success_rate := 0 }

/-- Witness for C5: with `total_predictions = 2` the decision is
`(current, 数据不足)` even though every other trigger condition holds. -/
theorem insufficient_data_guard_witness :
    getTotalPredictions (fun a => if a = 1 then some perfLowData else none) 1 < 5 ∧
    (should_switch_algorithm 1 (fun a => if a = 1 then some perfLowData else none)
        [] false false
      = (1, SwitchReason.insufficientData)
    ∧ reasonText SwitchReason.insufficientData = some "数据不足") :=
  ⟨by decide,
   insufficient_data_guard 1 (fun a => if a = 1 then some perfLowData else none)
     [] false false (by decide)⟩

lemma runForecast_switch_history (s : PredictorState)
    (predictFn : PredType → Nat → List LotteryRecord → Option String)
    (records : List LotteryRecord) (pt : PredType) (next algo : Nat)
    (si : Option SwitchInfo) :
    (runForecast s predictFn records pt next algo si).2.1.switch_history
      = s.switch_history := by
  simp only [runForecast]
  split
  · rfl
  · split
    · rfl
    · rfl

lemma runForecast_current_algorithms (s : PredictorState)
    (predictFn : PredType → Nat → List LotteryRecord → Option String)
    (records : List LotteryRecord) (pt : PredType) (next algo : Nat)
    (si : Option SwitchInfo) :
    (runForecast s predictFn records pt next algo si).2.1.current_algorithms
      = s.current_algorithms := by
  simp only [runForecast]
  split
  · rfl
  · split
    · rfl
    · rfl

lemma switchPhase_switch_history (s1 : PredictorState) (pt : PredType)
    (exploreDraw : Bool) :
    (switchPhase s1 pt exploreDraw).1.switch_history = s1.switch_history := by
  simp only [switchPhase]
  split
  · split
    · rfl
    · rfl
  · split
    · rfl
    · rfl

lemma calc_keeps_history (s : PredictorState)
    (predictFn : PredType → Nat → List LotteryRecord → Option String)
    (records : List LotteryRecord) (prediction_type : PredType)
    (exploreDraw : Bool) :
    ∀ pt',
      (calculate_prediction s predictFn records prediction_type
          exploreDraw).2.1.switch_history pt'
        = s.switch_history pt' := by
  intro pt'
  rcases records with _ | ⟨latest, rest⟩
  · rfl
  · simp only [calculate_prediction]
    rcases s.cache (latest.qihao + 1) prediction_type with _ | cached
    · rw [runForecast_switch_history]
      by_cases hbig : prediction_type = PredType.big_small
      · rw [if_pos hbig]
      · rw [if_neg hbig, switchPhase_switch_history]
    · rfl

/-- C1 as amended: a switch-decision taken during a forecast computation
never appends a `SwitchEvent` to the category's bounded switch history —
whether or not the current selection changes value, the history is left
unchanged, because the forecast path decides through
`should_switch_algorithm`, and the only routine that appends to
`algorithm_switch_history` (`AlgorithmSwitcher.select_next_algorithm`) is
not invoked on that path. -/
theorem forecast_keeps_switch_history (s : PredictorState)
    (predictFn : PredType → Nat → List LotteryRecord → Option String)
    (records : List LotteryRecord) (prediction_type : PredType)
    (exploreDraw : Bool) :
    ∀ pt',
      (calculate_prediction s predictFn records prediction_type
          exploreDraw).2.1.switch_history pt'
        = s.switch_history pt' :=
  calc_keeps_history s predictFn records prediction_type exploreDraw

lemma alookup_aset_self {α β : Type} [DecidableEq α] (k : α) (v : β)
    (l : List (α × β)) : alookup k (aset k v l) = some v := by
  induction l with
  | nil => simp [aset, alookup]
  | cons p t ih =>
    obtain ⟨k', v'⟩ := p
    by_cases hk : k' = k
    · subst hk
      simp [aset, alookup]
    · simp [aset, alookup, hk, ih]

lemma alookup_aset_ne {α β : Type} [DecidableEq α] {k k' : α} (v : β)
    (l : List (α × β)) (h : k' ≠ k) : alookup k' (aset k v l) = alookup k' l := by
  have hkk : ¬ k = k' := fun e => h e.symm
  induction l with
  | nil => simp only [aset, alookup, if_neg hkk]
  | cons p t ih =>
    obtain ⟨k'', v''⟩ := p
    by_cases hk : k'' = k
    · subst hk
      simp only [aset, if_pos rfl, alookup, if_neg hkk]
    · simp only [aset, if_neg hk, alookup]
      rw [ih]

lemma alookup_ensureRow_self (q : QTable) (s : String) :
    alookup s (ensureRow q s) = some ((alookup s q).getD defaultQRow) := by
  unfold ensureRow
  cases h : alookup s q with
  | none => simp [alookup_aset_self]
  | some r => simp [h]

lemma alookup_ensureRow_ne (q : QTable) {s s' : String} (h : s' ≠ s) :
    alookup s' (ensureRow q s) = alookup s' q := by
  unfold ensureRow
  cases alookup s q with
  | none => simp [alookup_aset_ne _ _ h]
  | some r => rfl

lemma rows_nonempty_ensureRow {q : QTable} (s : String)
    (hwf : ∀ t row, alookup t q = some row → row ≠ []) :
    ∀ t row, alookup t (ensureRow q s) = some row → row ≠ [] := by
  intro t row ht
  by_cases hts : t = s
  · subst hts
    rw [alookup_ensureRow_self] at ht
    cases h : alookup t q with
    | none =>
      rw [h] at ht
      simp only [Option.getD_none, Option.some.injEq] at ht
      rw [← ht]
      decide
    | some r =>
      rw [h] at ht
      simp only [Option.getD_some, Option.some.injEq] at ht
      rw [← ht]
      exact hwf t r h
  · rw [alookup_ensureRow_ne q hts] at ht
    exact hwf t row ht

/-- C7: for every table whose rows are nonempty (which is every table the
learner ever builds), every action in {1,2,3}, reward and pair of states,
`update_q_values` first lazily initializes the missing rows of `state` and
`next_state` to 0.5 for every algorithm id, leaves every other row of the
table unchanged, and then overwrites exactly the `(state, action)` entry with
`Q[s][a] + lr * (reward + γ * max(Q[s'].values()) - Q[s][a])`. -/
theorem q_update_formula (q : QTable) (state next_state : String) (action : Nat)
    (reward lr γ : ℚ)
    (ha : action = 1 ∨ action = 2 ∨ action = 3)
    (hwf : ∀ s row, alookup s q = some row → row ≠ []) :
    ∃ row nrow max_next_q,
      alookup state (ensureRow (ensureRow q state) next_state) = some row ∧
      alookup next_state (ensureRow (ensureRow q state) next_state) = some nrow ∧
      (alookup state q = none → row = defaultQRow) ∧
      (alookup state q = some row ∨ row = defaultQRow) ∧
      (alookup next_state q = none → nrow = defaultQRow) ∧
      (∀ s', s' ≠ state → s' ≠ next_state →
        alookup s' (ensureRow (ensureRow q state) next_state) = alookup s' q) ∧
      maxValues (nrow.map Prod.snd) = some max_next_q ∧
      update_q_values q state action reward next_state lr γ =
        aset state
          (aset action
            ((alookup action row).getD 0.5 +
              lr * (reward + γ * max_next_q - (alookup action row).getD 0.5)) row)
          (ensureRow (ensureRow q state) next_state) ∧
      getEntry (update_q_values q state action reward next_state lr γ) state action =
        some ((alookup action row).getD 0.5 +
          lr * (reward + γ * max_next_q - (alookup action row).getD 0.5)) ∧
      (∀ s' a', ¬ (s' = state ∧ a' = action) →
        getEntry (update_q_values q state action reward next_state lr γ) s' a' =
          getEntry (ensureRow (ensureRow q state) next_state) s' a') := by
  classical
  set row : QRow := (alookup state q).getD defaultQRow with hrowdef
  have hs1 : alookup state (ensureRow q state) = some row :=
    alookup_ensureRow_self q state
  have hrowI : alookup state (ensureRow (ensureRow q state) next_state) = some row := by
    by_cases hsn : state = next_state
    · subst hsn
      rw [alookup_ensureRow_self, hs1]
      rfl
    · rw [alookup_ensureRow_ne _ hsn, hs1]
  set nrow : QRow := (alookup next_state (ensureRow q state)).getD defaultQRow with hnrowdef
  have hnrowI : alookup next_state (ensureRow (ensureRow q state) next_state)
      = some nrow := alookup_ensureRow_self (ensureRow q state) next_state
  have hnrow_ne : nrow ≠ [] := by
    rw [hnrowdef]
    cases h : alookup next_state (ensureRow q state) with
    | none => decide
    | some r =>
      simp only [Option.getD_some]
      exact rows_nonempty_ensureRow state hwf next_state r h
  obtain ⟨m, hm⟩ : ∃ m, maxValues (nrow.map Prod.snd) = some m := by
    cases hn : nrow with
    | nil => exact absurd hn hnrow_ne
    | cons x t => exact ⟨_, rfl⟩
  have hupd : update_q_values q state action reward next_state lr γ =
      aset state
        (aset action
          ((alookup action row).getD 0.5 +
            lr * (reward + γ * m - (alookup action row).getD 0.5)) row)
        (ensureRow (ensureRow q state) next_state) := by
    simp only [update_q_values]
    rw [hrowI, hnrowI]
    simp only [Option.getD_some]
    rw [hm]
  refine ⟨row, nrow, m, hrowI, hnrowI, ?_, ?_, ?_, ?_, hm, hupd, ?_, ?_⟩
  · intro hnone
    rw [hrowdef, hnone, Option.getD_none]
  · rw [hrowdef]
    cases h : alookup state q with
    | none => exact Or.inr (by rw [Option.getD_none])
    | some r => exact Or.inl (by rw [Option.getD_some])
  · intro hnone
    rw [hnrowdef]
    by_cases hsn : next_state = state
    · subst hsn
      rw [alookup_ensureRow_self, hnone, Option.getD_none]
      rfl
    · rw [alookup_ensureRow_ne _ hsn, hnone, Option.getD_none]
  · intro s' hs hn
    rw [alookup_ensureRow_ne _ hn, alookup_ensureRow_ne _ hs]
  · rw [hupd]
    unfold getEntry
    rw [alookup_aset_self]
    simp only [Option.some_bind]
    rw [alookup_aset_self]
  · intro s' a' hne
    rw [hupd]
    unfold getEntry
    by_cases hs : s' = state
    · subst hs
      have hane : a' ≠ action := by
        intro h
        exact hne ⟨rfl, h⟩
      rw [alookup_aset_self, hrowI]
      simp only [Option.some_bind]
      rw [alookup_aset_ne _ _ hane]
    · rw [alookup_aset_ne _ _ hs]

/-- Witness for C7: updating the empty table at state "s", action 1. -/
theorem q_update_formula_witness :
    ((1 : Nat) = 1 ∨ (1 : Nat) = 2 ∨ (1 : Nat) = 3) ∧
    (∃ row nrow max_next_q,
      alookup "s" (ensureRow (ensureRow ([] : QTable) "s") "t") = some row ∧
      alookup "t" (ensureRow (ensureRow ([] : QTable) "s") "t") = some nrow ∧
      (alookup "s" ([] : QTable) = none → row = defaultQRow) ∧
      (alookup "s" ([] : QTable) = some row ∨ row = defaultQRow) ∧
      (alookup "t" ([] : QTable) = none → nrow = defaultQRow) ∧
      (∀ s', s' ≠ "s" → s' ≠ "t" →
        alookup s' (ensureRow (ensureRow ([] : QTable) "s") "t") =
          alookup s' ([] : QTable)) ∧
      maxValues (nrow.map Prod.snd) = some max_next_q ∧
      update_q_values [] "s" 1 1 "t" 0.05 0.95 =
        aset "s"
          (aset 1
            ((alookup 1 row).getD 0.5 +
              0.05 * (1 + 0.95 * max_next_q - (alookup 1 row).getD 0.5)) row)
          (ensureRow (ensureRow ([] : QTable) "s") "t") ∧
      getEntry (update_q_values [] "s" 1 1 "t" 0.05 0.95) "s" 1 =
        some ((alookup 1 row).getD 0.5 +
          0.05 * (1 + 0.95 * max_next_q - (alookup 1 row).getD 0.5)) ∧
      (∀ s' a', ¬ (s' = "s" ∧ a' = 1) →
        getEntry (update_q_values [] "s" 1 1 "t" 0.05 0.95) s' a' =
          getEntry (ensureRow (ensureRow ([] : QTable) "s") "t") s' a')) :=
  ⟨Or.inl rfl,
   q_update_formula [] "s" "t" 1 1 0.05 0.95 (Or.inl rfl)
     (by intro s r h; simp [alookup] at h)⟩

/-- C10: for a current algorithm in {1,2,3} and any performance data, the
fallback selection returns an id in {1,2,3} different from the current one
and carrying the maximal confidence key (missing scores default to 0) among
the other ids; the internal-error fallback `current % 3 + 1` is likewise a
valid id different from the current one. -/
theorem select_next_algorithm_valid (current_algo : Nat) (pd : PerfData)
    (h : current_algo = 1 ∨ current_algo = 2 ∨ current_algo = 3) :
    (selectNextAlgorithm current_algo pd = 1 ∨ selectNextAlgorithm current_algo pd = 2 ∨
      selectNextAlgorithm current_algo pd = 3) ∧
    selectNextAlgorithm current_algo pd ≠ current_algo ∧
    (∀ a, (a = 1 ∨ a = 2 ∨ a = 3) → a ≠ current_algo →
      confKey pd a ≤ confKey pd (selectNextAlgorithm current_algo pd)) ∧
    (current_algo % 3 + 1 = 1 ∨ current_algo % 3 + 1 = 2 ∨ current_algo % 3 + 1 = 3) ∧
    current_algo % 3 + 1 ≠ current_algo := by
  refine ⟨?_, selectNext_ne current_algo pd, ?_, ?_, ?_⟩
  · rcases h with rfl | rfl | rfl
    · rw [selectNext_eq_one]
      split
      · exact Or.inr (Or.inl rfl)
      · exact Or.inr (Or.inr rfl)
    · rw [selectNext_eq_two]
      split
      · exact Or.inl rfl
      · exact Or.inr (Or.inr rfl)
    · rw [selectNext_eq_three]
      split
      · exact Or.inl rfl
      · exact Or.inr (Or.inl rfl)
  · intro a ha hne
    rcases h with rfl | rfl | rfl
    · rw [selectNext_eq_one]
      by_cases hc : confKey pd 3 ≤ confKey pd 2
      · rw [if_pos hc]
        rcases ha with rfl | rfl | rfl
        · exact absurd rfl hne
        · exact le_refl _
        · exact hc
      · rw [if_neg hc]
        rcases ha with rfl | rfl | rfl
        · exact absurd rfl hne
        · exact le_of_not_le hc
        · exact le_refl _
    · rw [selectNext_eq_two]
      by_cases hc : confKey pd 3 ≤ confKey pd 1
      · rw [if_pos hc]
        rcases ha with rfl | rfl | rfl
        · exact le_refl _
        · exact absurd rfl hne
        · exact hc
      · rw [if_neg hc]
        rcases ha with rfl | rfl | rfl
        · exact le_of_not_le hc
        · exact absurd rfl hne
        · exact le_refl _
    · rw [selectNext_eq_three]
      by_cases hc : confKey pd 2 ≤ confKey pd 1
      · rw [if_pos hc]
        rcases ha with rfl | rfl | rfl
        · exact le_refl _
        · exact hc
        · exact absurd rfl hne
      · rw [if_neg hc]
        rcases ha with rfl | rfl | rfl
        · exact le_of_not_le hc
        · exact le_refl _
        · exact absurd rfl hne
  · rcases h with rfl | rfl | rfl <;> decide
  · rcases h with rfl | rfl | rfl <;> decide

/-- The empty performance dictionary. -/
def pdEmpty : PerfData := fun _ => none

/-- Witness for C10 at current algorithm 1 and empty performance data. -/
theorem select_next_algorithm_valid_witness :
    (selectNextAlgorithm 1 pdEmpty = 1 ∨ selectNextAlgorithm 1 pdEmpty = 2 ∨
      selectNextAlgorithm 1 pdEmpty = 3) ∧
    selectNextAlgorithm 1 pdEmpty ≠ 1 ∧
    (∀ a, (a = 1 ∨ a = 2 ∨ a = 3) → a ≠ 1 →
      confKey pdEmpty a ≤ confKey pdEmpty (selectNextAlgorithm 1 pdEmpty)) ∧
    ((1 : Nat) % 3 + 1 = 1 ∨ (1 : Nat) % 3 + 1 = 2 ∨ (1 : Nat) % 3 + 1 = 3) ∧
    (1 : Nat) % 3 + 1 ≠ 1 :=
  select_next_algorithm_valid 1 pdEmpty (Or.inl rfl)

/-- C6: with current algorithm 1 at 10 total predictions, 2 correct,
recent results [0,0,0,0,1] and 3 consecutive wrong, the decision switches to
a different algorithm with the consecutive-error reason, whose text mentions
"连续错误". -/
theorem consecutive_error_switch (pd : PerfData) (p : PerfRecord) (trend : List ℚ)
    (force_exploration exploreDraw : Bool)
    (hp : pd 1 = some p)
    (htotal : p.total_predictions = 10)
    (hcorrect : p.correct_predictions = 2)
    (hrecent : p.recent_results = [0, 0, 0, 0, 1])
    (hcw : p.consecutive_wrong = 3) :
    (should_switch_algorithm 1 pd trend force_exploration exploreDraw).1 ≠ 1 ∧
    (should_switch_algorithm 1 pd trend force_exploration exploreDraw).2 =
      SwitchReason.consecutiveErrors 3 ∧
    reasonText (SwitchReason.consecutiveErrors 3) = some "连续错误次数过多: 3次" := by
  have hswitch : should_switch_algorithm 1 pd trend force_exploration exploreDraw =
      (selectNextAlgorithm 1 pd, SwitchReason.consecutiveErrors 3) := by
    unfold should_switch_algorithm
    simp only [getTotalPredictions, getConsecutiveWrong, hp, htotal, hcw,
      min_predictions_before_switch, max_consecutive_errors]
    norm_num
  rw [hswitch]
  exact ⟨selectNext_ne 1 pd, rfl, by decide⟩

/-- The record used in the C6 witness. -/
def perfErrStreak : PerfRecord :=
  { initPerfRecord with
    total_predictions := 10, correct_predictions := 2,
    recent_results := [0, 0, 0, 0, 1], consecutive_wrong := 3 }

/-- The performance dictionary used in the C6 witness. -/
def pdErrStreak : PerfData :=
  fun a => if a = 1 then some perfErrStreak else some initPerfRecord

/-- Witness for C6 at a concrete performance dictionary. -/
theorem consecutive_error_switch_witness :
    pdErrStreak 1 = some perfErrStreak ∧
    ((should_switch_algorithm 1 pdErrStreak [] false false).1 ≠ 1 ∧
     (should_switch_algorithm 1 pdErrStreak [] false false).2 =
       SwitchReason.consecutiveErrors 3 ∧
     reasonText (SwitchReason.consecutiveErrors 3) = some "连续错误次数过多: 3次") :=
  ⟨rfl, consecutive_error_switch pdErrStreak perfErrStreak [] false false
    rfl rfl rfl rfl rfl⟩

/-- A steady record: enough data, no consecutive errors, mid confidence. -/
def perfSteady : PerfRecord :=
  { initPerfRecord with total_predictions := 10, correct_predictions := 5 }

/-- Performance data for the C4 counterexample. -/
def pdSteady : PerfData := fun a => if a = 1 then some perfSteady else some initPerfRecord

/-- A trend series whose last four points strictly decline after an initial
rise, so the whole series is not strictly decreasing. -/
def trendLateDecline : List ℚ := [0.1, 0.6, 0.5, 0.4, 0.3]

/-- Counterexample to C4: the trend series ends in four consecutively
declining points (three declines) and none of the earlier rules fires, yet
`should_switch_algorithm` keeps the current algorithm with the "normal"
reason, because the code only switches when the *entire* recorded series is
strictly decreasing. -/
theorem trend_decline_counterexample :
    (3 ≤ trendLateDecline.length ∧
     allStrictlyDecreasing (trendLateDecline.drop 1) = true ∧
     (trendLateDecline.drop 1).length = 4) ∧
    ¬ getTotalPredictions pdSteady 1 < min_predictions_before_switch ∧
    getConsecutiveWrong pdSteady 1 < max_consecutive_errors ∧
    ¬ getConfidenceScore pdSteady 1 < min_confidence_score ∧
    ¬ getRecentSuccessRate pdSteady 1 < min_recent_success_rate ∧
    should_switch_algorithm 1 pdSteady trendLateDecline false false
      = (1, SwitchReason.normal) := by
  refine ⟨⟨by decide, ?_, by decide⟩, by decide, by decide, ?_, ?_, ?_⟩
  · norm_num [allStrictlyDecreasing, trendLateDecline]
  · norm_num [getConfidenceScore, pdSteady, perfSteady, initPerfRecord,
      min_confidence_score]
  · norm_num [getRecentSuccessRate, pdSteady, perfSteady, initPerfRecord,
      min_recent_success_rate]
  · unfold should_switch_algorithm
    norm_num [getTotalPredictions, getConsecutiveWrong, getConfidenceScore,
      getRecentSuccessRate, pdSteady, perfSteady, initPerfRecord,
      min_predictions_before_switch, max_consecutive_errors,
      min_confidence_score, min_recent_success_rate, exploration_threshold,
      trendLateDecline, allStrictlyDecreasing]

/-- C4 as amended: when none of the earlier rules fires and the *whole*
trend series recorded for the current algorithm (of length at least 3) is
strictly decreasing, the decision switches to a different algorithm with
reason "performance persistently declining"; a declining run at the end of a
longer, not entirely decreasing series does not suffice. -/
theorem trend_decline_switch (current_algo : Nat) (pd : PerfData) (trend : List ℚ)
    (force_exploration exploreDraw : Bool)
    (h1 : ¬ getTotalPredictions pd current_algo < min_predictions_before_switch)
    (h2 : getConsecutiveWrong pd current_algo < max_consecutive_errors)
    (h3 : ¬ getConfidenceScore pd current_algo < min_confidence_score)
    (h4 : ¬ getRecentSuccessRate pd current_algo < min_recent_success_rate)
    (h5 : 3 ≤ trend.length)
    (h6 : allStrictlyDecreasing trend = true) :
    should_switch_algorithm current_algo pd trend force_exploration exploreDraw
      = (selectNextAlgorithm current_algo pd, SwitchReason.performanceDeclining) ∧
    selectNextAlgorithm current_algo pd ≠ current_algo := by
  refine ⟨?_, selectNext_ne current_algo pd⟩
  unfold should_switch_algorithm
  rw [if_neg h1, if_neg (Nat.not_le.mpr h2), if_neg h3, if_neg h4, if_pos ⟨h5, h6⟩]

/-- An entirely declining three-point trend for the C4 witness. -/
def trendAllDecline : List ℚ := [0.6, 0.5, 0.4]

/-- Witness for the amended C4 at a concrete state. -/
theorem trend_decline_switch_witness :
    (¬ getTotalPredictions pdSteady 1 < min_predictions_before_switch) ∧
    getConsecutiveWrong pdSteady 1 < max_consecutive_errors ∧
    (¬ getConfidenceScore pdSteady 1 < min_confidence_score) ∧
    (¬ getRecentSuccessRate pdSteady 1 < min_recent_success_rate) ∧
    3 ≤ trendAllDecline.length ∧
    allStrictlyDecreasing trendAllDecline = true ∧
    (should_switch_algorithm 1 pdSteady trendAllDecline false false
      = (selectNextAlgorithm 1 pdSteady, SwitchReason.performanceDeclining) ∧
     selectNextAlgorithm 1 pdSteady ≠ 1) :=
  ⟨by decide, by decide,
   by norm_num [getConfidenceScore, pdSteady, perfSteady, initPerfRecord,
        min_confidence_score],
   by norm_num [getRecentSuccessRate, pdSteady, perfSteady, initPerfRecord,
        min_recent_success_rate],
   by decide,
   by norm_num [allStrictlyDecreasing, trendAllDecline],
   trend_decline_switch 1 pdSteady trendAllDecline false false
     (by decide) (by decide)
     (by norm_num [getConfidenceScore, pdSteady, perfSteady, initPerfRecord,
        min_confidence_score])
     (by norm_num [getRecentSuccessRate, pdSteady, perfSteady, initPerfRecord,
        min_recent_success_rate])
     (by decide)
     (by norm_num [allStrictlyDecreasing, trendAllDecline])⟩

/-- Concrete orchestrator state: algorithm 1 everywhere, the consecutive-error
record of `pdErrStreak` for every category, empty cache, trends and history. -/
def exState : PredictorState :=
  { current_algorithms := fun _ => 1
  , algorithm_performance := fun _ => pdErrStreak
  , algorithm_trends := fun _ _ => []
  , switch_counters := fun _ => 0
  , force_exploration := false
  , forced_exploration_done := fun _ => false
  , last_used_algorithms := fun _ _ => none
  , cache := fun _ _ => none
  , switch_history := fun _ => [] }

/-- A constant pluggable forecasting function. -/
def exPredict : PredType → Nat → List LotteryRecord → Option String :=
  fun _ _ _ => some "单"

/-- A single-record history at period 100. -/
def exRecords : List LotteryRecord := [{ qihao := 100 }]

lemma selectNext_pdErrStreak : selectNextAlgorithm 1 pdErrStreak = 2 := by
  rw [selectNext_eq_one]
  norm_num [confKey, pdErrStreak, perfErrStreak, initPerfRecord]

lemma should_switch_pdErrStreak :
    should_switch_algorithm 1 pdErrStreak [] false false
      = (2, SwitchReason.consecutiveErrors 3) := by
  have h1 : getTotalPredictions pdErrStreak 1 = 10 := rfl
  have h2 : getConsecutiveWrong pdErrStreak 1 = 3 := rfl
  unfold should_switch_algorithm
  rw [h1, h2, selectNext_pdErrStreak]
  norm_num [min_predictions_before_switch, max_consecutive_errors]

/-- The switch information produced by the first forecast call on `exState`. -/
def exSwitchInfo : SwitchInfo :=
  { from_algo := 1, to_algo := 2, reason := SwitchReason.consecutiveErrors 3 }

/-- The result of the first forecast call on `exState`. -/
def exRes1 : PredictionResult :=
  { qihao := 101
  , prediction_type := PredType.single_double
  , prediction := "单"
  , algorithm_used := (PredType.single_double, 2)
  , switch_info := some exSwitchInfo }

lemma exState_first_call_fst :
    (calculate_prediction exState exPredict exRecords PredType.single_double
        false).1 = some exRes1 := by
  simp only [calculate_prediction, exRecords, exState, exPredict, runForecast,
    switchPhase, exRes1, exSwitchInfo]
  norm_num +decide [should_switch_pdErrStreak, show ("单").isEmpty = false from rfl]

lemma exState_first_call_current :
    (calculate_prediction exState exPredict exRecords PredType.single_double
        false).2.1.current_algorithms PredType.single_double = 2 := by
  simp only [calculate_prediction, exRecords, exState,
    runForecast_current_algorithms, switchPhase]
  norm_num +decide [should_switch_pdErrStreak]

lemma runForecast_some (s : PredictorState)
    (predictFn : PredType → Nat → List LotteryRecord → Option String)
    (records : List LotteryRecord) (pt : PredType) (next algo : Nat)
    (si : Option SwitchInfo) (res : PredictionResult)
    (h : (runForecast s predictFn records pt next algo si).1 = some res) :
    res.qihao = next ∧ res.prediction_type = pt ∧
    res.algorithm_used = (pt, algo) ∧ res.switch_info = si ∧
    (runForecast s predictFn records pt next algo si).2.1.cache next pt
      = some { prediction := res.prediction, algorithm_used := (pt, algo) } := by
  unfold runForecast at h ⊢
  rcases hp : predictFn pt algo records with _ | content
  · simp only [hp] at h
    simp at h
  · simp only [hp] at h ⊢
    by_cases he : content.isEmpty = true
    · simp only [if_pos he] at h
      simp at h
    · simp only [if_neg he] at h ⊢
      rw [Option.some.injEq] at h
      subst h
      refine ⟨rfl, rfl, rfl, rfl, ?_⟩
      simp

lemma cached_second_call (s : PredictorState)
    (predictFn : PredType → Nat → List LotteryRecord → Option String)
    (records : List LotteryRecord) (pt : PredType)
    (draw draw2 : Bool) (res1 : PredictionResult)
    (h : (calculate_prediction s predictFn records pt draw).1 = some res1) :
    ∃ res2,
      calculate_prediction (calculate_prediction s predictFn records pt draw).2.1
          predictFn records pt draw2
        = (some res2, (calculate_prediction s predictFn records pt draw).2.1, 0) ∧
      res2.qihao = res1.qihao ∧ res2.prediction_type = res1.prediction_type ∧
      res2.prediction = res1.prediction ∧
      res2.algorithm_used = res1.algorithm_used ∧
      res2.switch_info = none := by
  rcases records with _ | ⟨latest, rest⟩
  · simp [calculate_prediction] at h
  · simp only [calculate_prediction] at h ⊢
    rcases hcache : s.cache (latest.qihao + 1) pt with _ | cached
    · simp only [hcache] at h ⊢
      obtain ⟨hq, hpt, halgo, hsi, hcache1⟩ :=
        runForecast_some _ predictFn (latest :: rest) pt (latest.qihao + 1) _ _ _ h
      refine ⟨⟨latest.qihao + 1, pt, res1.prediction, res1.algorithm_used, none⟩,
        ?_, hq.symm, hpt.symm, rfl, rfl, rfl⟩
      simp only [hcache1]
      rw [halgo]
    · simp only [hcache] at h ⊢
      rw [Option.some.injEq] at h
      subst h
      exact ⟨_, rfl, rfl, rfl, rfl, rfl, rfl⟩

/-- C3 as amended: a second forecast call for the same (category, period id)
without an intervening verification or new period is served from the cache —
the state is unchanged and the forecasting function is not invoked — and
agrees with the first call's output on period id, category, prediction text
and algorithm used; but the outputs need not be bit-identical: the cached
read always carries an empty `switch_info`, while a first call that switched
algorithms carries the switch details. -/
theorem cached_forecast_read (s : PredictorState)
    (predictFn : PredType → Nat → List LotteryRecord → Option String)
    (records : List LotteryRecord) (pt : PredType)
    (draw draw2 : Bool) (res1 : PredictionResult)
    (h : (calculate_prediction s predictFn records pt draw).1 = some res1) :
    ∃ res2,
      calculate_prediction (calculate_prediction s predictFn records pt draw).2.1
          predictFn records pt draw2
        = (some res2, (calculate_prediction s predictFn records pt draw).2.1, 0) ∧
      res2.qihao = res1.qihao ∧ res2.prediction_type = res1.prediction_type ∧
      res2.prediction = res1.prediction ∧
      res2.algorithm_used = res1.algorithm_used ∧
      res2.switch_info = none :=
  cached_second_call s predictFn records pt draw draw2 res1 h

/-- Witness for the amended C3 at the concrete state `exState`. -/
theorem cached_forecast_read_witness :
    (calculate_prediction exState exPredict exRecords PredType.single_double
        false).1 = some exRes1 ∧
    ∃ res2,
      calculate_prediction
          (calculate_prediction exState exPredict exRecords
              PredType.single_double false).2.1
          exPredict exRecords PredType.single_double false
        = (some res2,
           (calculate_prediction exState exPredict exRecords
              PredType.single_double false).2.1, 0) ∧
      res2.qihao = exRes1.qihao ∧ res2.prediction_type = exRes1.prediction_type ∧
      res2.prediction = exRes1.prediction ∧
      res2.algorithm_used = exRes1.algorithm_used ∧
      res2.switch_info = none :=
  ⟨exState_first_call_fst,
   cached_forecast_read exState exPredict exRecords PredType.single_double
     false false exRes1 exState_first_call_fst⟩

/-- Counterexample to C3 as stated: at `exState` the first call switches
algorithms and returns `switch_info = some exSwitchInfo`, while the second
(cached) call returns `switch_info = none`; the two outputs are not
bit-identical. -/
theorem cached_forecast_counterexample :
    (calculate_prediction exState exPredict exRecords PredType.single_double
        false).1 = some exRes1 ∧
    exRes1.switch_info = some exSwitchInfo ∧
    ∃ res2,
      (calculate_prediction
          (calculate_prediction exState exPredict exRecords
              PredType.single_double false).2.1
          exPredict exRecords PredType.single_double false).1 = some res2 ∧
      res2.switch_info = none ∧ res2 ≠ exRes1 := by
  refine ⟨exState_first_call_fst, rfl, ?_⟩
  obtain ⟨res2, heq, hq, hpt, hpred, halg, hsi⟩ :=
    cached_second_call exState exPredict exRecords PredType.single_double
      false false exRes1 exState_first_call_fst
  refine ⟨res2, by rw [heq], hsi, ?_⟩
  intro hcontra
  rw [hcontra] at hsi
  simp [exRes1, exSwitchInfo] at hsi

/-- Counterexample to C1: on the forecast path the current selection changes
from 1 to 2 (a switch decision fires), yet the bounded switch history is left
unchanged — no `SwitchEvent` is appended. -/
theorem switch_logging_counterexample :
    (calculate_prediction exState exPredict exRecords PredType.single_double
        false).2.1.current_algorithms PredType.single_double = 2 ∧
    exState.current_algorithms PredType.single_double = 1 ∧
    (calculate_prediction exState exPredict exRecords PredType.single_double
        false).2.1.switch_history PredType.single_double
      = exState.switch_history PredType.single_double :=
  ⟨exState_first_call_current, rfl,
   calc_keeps_history exState exPredict exRecords PredType.single_double false
     PredType.single_double⟩
